import Mathlib

/-!
# Verification of the ARROW dashboard filtering-and-aggregation engine

Shallow embedding of the core of `src/pages/Longitudinal.py` (and the
identical functions of `src/pages/1_Original.py`): the per-subject
autofill (imputer), the multi-predicate row filter with non-missing
counting, and the longitudinal bucketizer.

A table is a list of rows; a row carries its `record_id` and an
association list of named cells.  A cell value is either numeric
(pandas numbers, embedded as `ℚ`) or a string; a missing cell (pandas
`NaN`) is `none`.
-/

namespace Arrow

/-- A cell value: numeric (pandas numeric dtype, embedded as `ℚ`) or string. -/
inductive Val : Type where
  | num (q : ℚ)
  | str (s : String)
deriving DecidableEq

/-- A row of the dataset: its subject key `record_id` and the named cells.
A binding `(c, none)` is a missing (`NaN`) entry for column `c`. -/
structure Row : Type where
  record_id : Nat
  cells : List (String × Option Val)
deriving DecidableEq

/-- Reading a cell: `row[c]`, with `none` for a missing value.  A column
absent from the association list is also read as missing (schema errors
are out of scope of the claims modelled here). -/
def Row.get (r : Row) (c : String) : Option Val :=
  (r.cells.lookup c).join

/-- Python `dict` assignment `m[k] = a`: replace the value of an existing
key in place (keeping its position), append a fresh key at the end. -/
def dictSet {A : Type} (m : List (String × A)) (k : String) (a : A) :
    List (String × A) :=
  if (m.lookup k).isSome then
    m.map (fun p => if p.1 = k then (k, a) else p)
  else
    m ++ [(k, a)]

/-- Writing a cell, the effect of `df[c] = series` on one row: pandas
replaces an existing column in place and appends a new one at the end. -/
def Row.set (r : Row) (c : String) (v : Option Val) : Row :=
  { r with cells := dictSet r.cells c v }

/-- `filtered_df[column].between(values[0], values[1])` for one row
(Longitudinal.py line 95): inclusive on both ends; a missing value never
passes.  `tss` and `age` are numeric columns (tss is coerced with
`pd.to_numeric(..., errors='coerce')` at load), so a non-numeric cell or
bound stands for `NaN` and fails the comparison. -/
def rowBetween (r : Row) (column : String) (values : List Val) : Bool :=
  match r.get column, values.get? 0, values.get? 1 with
  | some (.num q), some (.num lo), some (.num hi) =>
      decide (lo ≤ q) && decide (q ≤ hi)
  | _, _, _ => false

/-- `filtered_df[column].isin(values)` for one row (line 98): a missing
value is in no membership list used by the app. -/
def rowIsin (r : Row) (column : String) (values : List Val) : Bool :=
  match r.get column with
  | some v => values.contains v
  | none => false

/-- The loop `for column, values in cols.items()` of `filter_count`
(lines 93–98): range test for the two numeric columns `age` and `tss`,
membership test otherwise, an empty membership list skipped. -/
def applyFilters (df : List Row) (cols : List (String × List Val)) :
    List Row :=
  cols.foldl
    (fun acc cv =>
      if cv.1 = "age" ∨ cv.1 = "tss" then
        acc.filter (fun r => rowBetween r cv.1 cv.2)
      else if cv.2.isEmpty then acc
      else acc.filter (fun r => rowIsin r cv.1 cv.2))
    df

/-- The long-term-outcome subject filter (lines 90–92):
`filtered_df.groupby('record_id').filter(lambda grp:
grp['long_term_outcomes_complete'].notna().sum() >= 1)` — keep a row iff
some row of the same subject has a non-missing marker; pandas returns
the kept rows in their original order. -/
def ltFilter (df : List Row) : List Row :=
  df.filter (fun r =>
    df.any (fun r2 =>
      r2.record_id == r.record_id &&
        (r2.get "long_term_outcomes_complete").isSome))

/-- Count of non-missing entries of column `v`:
`filtered_df[var].notna().sum()` (line 102). -/
def countNonBlank (df : List Row) (v : String) : Nat :=
  df.countP (fun r => (r.get v).isSome)

/-- `filter_count(df, cols, variables)` (lines 76–104).  The function
first takes `df.copy()`, optionally applies the subject-level long-term
filter, then each column predicate in turn, and finally builds the
per-variable non-blank counts.  The page-global flag
`only_long_term_outcomes` is passed explicitly, as in the spec's
contract. -/
def filter_count (df : List Row) (cols : List (String × List Val))
    (vars : List String) (only_long_term_outcomes : Bool) :
    List (String × Nat) × List Row :=
  let filtered0 := if only_long_term_outcomes then ltFilter df else df
  let filtered_df := applyFilters filtered0 cols
  (vars.map (fun v => (v, countNonBlank filtered_df v)), filtered_df)

/-! ## Imputer (`autofill`, lines 58–70)

The source line is `df[column] = df.groupby('record_id')[column].ffill().bfill()`.
`groupby('record_id')[column].ffill()` forward-fills *within each subject
group* (in original row order, groups possibly interleaved) and returns a
series aligned with the original index.  The chained `.bfill()` is then a
plain `Series.bfill` on that result — a *global* backward fill that ignores
the groups.  The assignment writes the series back into the dataframe in
place. -/

/-- Per-group forward fill over a keyed column, `carry` holding the most
recent non-missing value seen so far for each key (newest binding first). -/
def gffillAux (carry : List (Nat × Val)) :
    List (Nat × Option Val) → List (Option Val)
  | [] => []
  | (k, x) :: xs =>
    match x with
    | some v => some v :: gffillAux ((k, v) :: carry) xs
    | none => carry.lookup k :: gffillAux carry xs

/-- `groupby('record_id')[column].ffill()`: each missing entry takes the
nearest preceding non-missing value of the same `record_id`, if any. -/
def gffill (l : List (Nat × Option Val)) : List (Option Val) :=
  gffillAux [] l

/-- Plain forward fill of a series, `carry` the last non-missing value. -/
def ffillAux (carry : Option Val) : List (Option Val) → List (Option Val)
  | [] => []
  | x :: xs =>
    match x with
    | some v => some v :: ffillAux (some v) xs
    | none => carry :: ffillAux carry xs

/-- `Series.bfill()`: each missing entry takes the nearest *following*
non-missing value of the whole series, group keys ignored. -/
def bfill (l : List (Option Val)) : List (Option Val) :=
  (ffillAux none l.reverse).reverse

/-- The series computed for one column of `autofill` (line 69):
per-`record_id` forward fill, then global backward fill. -/
def autofillColumn (rows : List Row) (column : String) : List (Option Val) :=
  bfill (gffill (rows.map (fun r => (r.record_id, r.get column))))

/-- `df[column] = vals`: write a whole column back into the table. -/
def setColumn (rows : List Row) (column : String) (vals : List (Option Val)) :
    List Row :=
  List.zipWith (fun r v => r.set column v) rows vals

/-- `autofill(df, columns)` (lines 58–70): for each listed column in turn,
compute the filled series and assign it into the table.  The assignment is
in place in the source, so the caller's `df` holds this same value after
the call (see `autofill_inputAfter`). -/
def autofill (df : List Row) (columns : List String) : List Row :=
  columns.foldl (fun d column => setColumn d column (autofillColumn d column)) df

/-! ## Longitudinal bucketizer (`timepoints`, lines 120–125, and
`longitudinal_filter`, lines 128–148) -/

/-- The canonical bucket table of the source (lines 120–125): labels with
half-open month intervals, the declared right bound one past the
inclusive label bound. -/
def timepoints : List (String × (ℚ × ℚ)) :=
  [("3-4 months", (3, 5)),
   ("5-7 months", (5, 8)),
   ("8-12 months", (8, 13)),
   ("13-24 months", (13, 25))]

/-- Membership of a time value in a bucket's half-open interval:
`tss >= tp_range[0] and tss < tp_range[1]` (lines 143–144). -/
def inBucket (q : ℚ) (rng : ℚ × ℚ) : Bool :=
  decide (rng.1 ≤ q) && decide (q < rng.2)

/-- The row-level bucket test of lines 143–144: a missing `tss` fails both
comparisons (`NaN >= lo` and `NaN < hi` are both false); `tss` is numeric
by the `pd.to_numeric(..., errors='coerce')` conversion at load, so a
non-numeric cell stands for `NaN`. -/
def rowInBucket (r : Row) (rng : ℚ × ℚ) : Bool :=
  match r.get "tss" with
  | some (.num q) => inBucket q rng
  | _ => false

/-- The nested assignment `longitudinal_counts[var][tp_label] = n`
(line 146): look up the inner dict of `var` and set its `tp_label` entry.
The `none` branch is unreachable in the source: the loop iterates the same
`variables` used to build the outer dict, so the key is always present. -/
def setVarTp (outer : List (String × List (String × Nat)))
    (var tpl : String) (n : Nat) : List (String × List (String × Nat)) :=
  match outer.lookup var with
  | some inner => dictSet outer var (dictSet inner tpl n)
  | none => outer

/-- `longitudinal_filter(data, timepoints, variables)` (lines 128–148):
initialise every `(var, label)` entry to `0` (line 139), then for each
bucket select the rows whose `tss` lies in its half-open interval and
assign each variable's non-blank count (lines 142–146).  (A Python dict
comprehension would collapse duplicate keys in `variables`; the app's
`variables` list has no duplicates.) -/
def longitudinal_filter (data : List Row)
    (tps : List (String × (ℚ × ℚ))) (vars : List String) :
    List (String × List (String × Nat)) :=
  let init := vars.map (fun var => (var, tps.map (fun tp => (tp.1, 0))))
  tps.foldl
    (fun acc tp =>
      let tp_data := data.filter (fun r => rowInBucket r tp.2)
      vars.foldl
        (fun acc2 var => setVarTp acc2 var tp.1 (countNonBlank tp_data var))
        acc)
    init

/-! ## Heap effects of the three operations

The claims about mutation of the shared source table are stated through
explicit post-state definitions, each read off the aliasing discipline of
the source. -/

/-- Value held by the caller's `df` after `autofill(df, columns)` returns:
`df[column] = ...` (line 69) assigns into the argument in place, so the
caller's table holds the filled result, not its original value. -/
def autofill_inputAfter (df : List Row) (columns : List String) : List Row :=
  autofill df columns

/-- Value held by the caller's `df` after `filter_count(df, ...)` returns:
the body starts from `filtered_df = df.copy()` (line 88) and every later
step rebinds `filtered_df` to a fresh frame, so the argument is untouched. -/
def filter_count_inputAfter (df : List Row) : List Row :=
  df

/-- Value held by the caller's `data` after `longitudinal_filter(data, ...)`
returns: the body only reads `data` through boolean-mask selection
(lines 143–144), which allocates new frames, so the argument is untouched. -/
def longitudinal_filter_inputAfter (data : List Row) : List Row :=
  data

/-! ## Specification-side forms and concrete tables -/

/-- The two-level table of counts the bucketizer is specified to build,
parametrised by the per-cell value `g var label`: outer keys the variable
names in order, inner keys the bucket labels in order. -/
def lfTable (tps : List (String × (ℚ × ℚ))) (vars : List String)
    (g : String → String → Nat) : List (String × List (String × Nat)) :=
  vars.map (fun v => (v, tps.map (fun t => (t.1, g v t.1))))

/-- A row of subject 1 with a missing `sex_dashboard` cell. -/
def rowMissing1 : Row := ⟨1, [("sex_dashboard", none)]⟩

/-- A row of subject 2 carrying `sex_dashboard = "Male"`. -/
def rowMale2 : Row := ⟨2, [("sex_dashboard", some (.str "Male"))]⟩

/-- Two-row table: subject 1 has zero non-missing `sex_dashboard` values,
subject 2 carries `"Male"`. -/
def tLeak : List Row := [rowMissing1, rowMale2]

/-- Three-row table: subject 1's rows (positions 1 and 3) are both missing
`sex_dashboard`; subject 2's row (position 2) carries `"Male"`. -/
def tIdem : List Row := [rowMissing1, rowMale2, rowMissing1]

/-- One-row table: subject 1 at `tss = 4` months with `ikdc` present. -/
def tWit : List Row := [⟨1, [("tss", some (.num 4)), ("ikdc", some (.num 50))]⟩]

/-! ## Theorems -/

/-- Claim C2, code evidence at the failing input: in `tLeak`, subject 1 has
zero non-missing `sex_dashboard` values, so per the claim (and the
function's own docstring, "fill missing values for each record id") it must
remain missing; but `autofill` backward-fills across subject boundaries
(the chained `.bfill()` runs on the whole series, not per group), so
subject 1's row comes out as `"Male"`, leaked from subject 2. -/
theorem autofill_leaks_across_subjects :
    ((tLeak.filter (fun r => r.record_id == 1)).map
        (fun r => r.get "sex_dashboard") = [none])
    ∧ (((autofill tLeak ["sex_dashboard"]).filter (fun r => r.record_id == 1)).map
        (fun r => r.get "sex_dashboard") = [some (Val.str "Male")]) := by
  exact ⟨rfl, rfl⟩

/-- Claim C5, code evidence at the failing input: `autofill` is not
idempotent.  On `tIdem`, the first pass leaves row 3 (subject 1) missing —
the per-group forward fill finds nothing and the global backward fill has
nothing after it — but fills row 1 with subject 2's `"Male"`; the second
pass then forward-fills row 3 from the leaked row 1, so the results of one
and two passes differ. -/
theorem autofill_not_idempotent :
    autofill (autofill tIdem ["sex_dashboard"]) ["sex_dashboard"]
      ≠ autofill tIdem ["sex_dashboard"] := by
  decide

/-- Claim C3, counterexample: the table passed to `autofill` is *not*
unchanged after the call — the assignment `df[column] = ...` is in place,
so after `autofill(tLeak, ["sex_dashboard"])` the caller's table holds the
filled rows, which differ from the original. -/
theorem impute_mutates_source_counterexample :
    autofill_inputAfter tLeak ["sex_dashboard"] ≠ tLeak := by
  decide

/-- Claim C3, amended: the Row Filter and the Bucketizer leave the caller's
table unchanged (they work on a copy resp. on fresh boolean-mask frames),
but `autofill` assigns into its argument in place, so after the call the
source table holds `autofill df columns` — and there are inputs on which
that differs from the original table. -/
theorem frame_effects_of_operations (df : List Row) (columns : List String) :
    filter_count_inputAfter df = df
    ∧ longitudinal_filter_inputAfter df = df
    ∧ autofill_inputAfter df columns = autofill df columns
    ∧ ∃ (df' : List Row) (columns' : List String),
        autofill_inputAfter df' columns' ≠ df' := by
  exact ⟨rfl, rfl, rfl, tLeak, ["sex_dashboard"], by decide⟩

/-- Claim C6: an empty set spec on a non-range column is a no-op filter —
`filter_count` with `{col: []}` returns the same counts and the same
filtered table as with no predicate at all, because the `elif values:`
guard skips an empty membership list instead of rejecting every row. -/
theorem empty_set_is_no_filter (df : List Row) (vars : List String)
    (col : String) (b : Bool) (hcol : ¬(col = "age" ∨ col = "tss")) :
    filter_count df [(col, [])] vars b = filter_count df [] vars b := by
  simp [filter_count, applyFilters, hcol]

/-- Claim C6, witness: the no-op equation instantiated on the concrete
two-row table at the non-range column `sex_dashboard`. -/
theorem empty_set_is_no_filter_witness :
    filter_count tLeak [("sex_dashboard", [])] ["sex_dashboard"] false
      = filter_count tLeak [] ["sex_dashboard"] false :=
  empty_set_is_no_filter tLeak ["sex_dashboard"] "sex_dashboard" false (by decide)

/-- Claim C7: the range predicate `[lo, hi]` embedded from
`Series.between` is inclusive on both ends — a row whose value is exactly
`lo` or exactly `hi` passes, a row with a value strictly inside passes,
and a row whose value is missing never passes. -/
theorem range_predicate_inclusive (r : Row) (column : String) (lo hi : ℚ)
    (hle : lo ≤ hi) :
    (r.get column = some (Val.num lo) →
      rowBetween r column [Val.num lo, Val.num hi] = true)
    ∧ (r.get column = some (Val.num hi) →
      rowBetween r column [Val.num lo, Val.num hi] = true)
    ∧ (∀ q : ℚ, r.get column = some (Val.num q) → lo < q → q < hi →
      rowBetween r column [Val.num lo, Val.num hi] = true)
    ∧ (r.get column = none →
      rowBetween r column [Val.num lo, Val.num hi] = false) := by
  refine ⟨fun h => ?_, fun h => ?_, fun q h h1 h2 => ?_, fun h => ?_⟩
  · simp [rowBetween, h]; exact hle
  · simp [rowBetween, h]; exact hle
  · simp [rowBetween, h]; exact ⟨le_of_lt h1, le_of_lt h2⟩
  · simp [rowBetween, h]

/-- Claim C7, witness: a row with `age = 20` passes the range `[20, 25]`
(its value is exactly the lower endpoint). -/
theorem range_predicate_inclusive_witness :
    rowBetween ⟨1, [("age", some (Val.num 20))]⟩ "age"
      [Val.num 20, Val.num 25] = true :=
  (range_predicate_inclusive ⟨1, [("age", some (Val.num 20))]⟩ "age" 20 25
    (by norm_num)).1 rfl

/-- Claim C4: with the longitudinal-completeness option enabled,
`filter_count` equals `filter_count` run with the option off on the
subject-filtered table (so the subject filter is applied before every
column predicate), and the subject filter keeps exactly the rows of
subjects having at least one row with a non-missing
`long_term_outcomes_complete` marker. -/
theorem longterm_filter_first_and_subject_level (df : List Row)
    (cols : List (String × List Val)) (vars : List String) (r : Row) :
    filter_count df cols vars true = filter_count (ltFilter df) cols vars false
    ∧ (r ∈ ltFilter df ↔ r ∈ df ∧ ∃ r2 ∈ df, r2.record_id = r.record_id
        ∧ (r2.get "long_term_outcomes_complete").isSome) := by
  refine ⟨rfl, ?_⟩
  simp only [ltFilter, List.mem_filter, List.any_eq_true, Bool.and_eq_true,
    beq_iff_eq, decide_eq_true_eq]

/-- Claim C10: a row whose `tss` value is missing contributes to no
(bucket, variable) count — prepending such a row to the data leaves the
whole bucketize result unchanged, since `NaN >= lo` and `NaN < hi` are
both false. -/
theorem missing_tss_in_no_bucket (data : List Row)
    (tps : List (String × (ℚ × ℚ))) (vars : List String) (r : Row)
    (h : r.get "tss" = none) :
    longitudinal_filter (r :: data) tps vars
      = longitudinal_filter data tps vars := by
  have hb : ∀ rng : ℚ × ℚ, rowInBucket r rng = false := by
    intro rng; simp [rowInBucket, h]
  simp only [longitudinal_filter]
  congr 1
  funext acc tp
  simp [List.filter_cons, hb]

/-- Claim C10, witness: prepending a row with missing `tss` to the
one-row table `tWit` leaves every canonical bucket count unchanged. -/
theorem missing_tss_in_no_bucket_witness :
    longitudinal_filter (⟨3, [("tss", none), ("ikdc", some (Val.num 7))]⟩ :: tWit)
        timepoints ["ikdc"]
      = longitudinal_filter tWit timepoints ["ikdc"] :=
  missing_tss_in_no_bucket tWit timepoints ["ikdc"]
    ⟨3, [("tss", none), ("ikdc", some (Val.num 7))]⟩ rfl

/-- Unfolding of the bucket test to its two rational comparisons. -/
theorem inBucket_eq_true_iff (q : ℚ) (rng : ℚ × ℚ) :
    inBucket q rng = true ↔ rng.1 ≤ q ∧ q < rng.2 := by
  simp [inBucket]

/-- Failure of the bucket test as a disjunction of strict bounds. -/
theorem inBucket_eq_false_iff (q : ℚ) (rng : ℚ × ℚ) :
    inBucket q rng = false ↔ q < rng.1 ∨ rng.2 ≤ q := by
  rw [← Bool.not_eq_true, inBucket_eq_true_iff]
  constructor
  · intro h
    by_cases h1 : rng.1 ≤ q
    · exact Or.inr (le_of_not_lt fun h2 => h ⟨h1, h2⟩)
    · exact Or.inl (lt_of_not_le h1)
  · rintro (h | h) ⟨h1, h2⟩
    · exact absurd h1 (not_le_of_lt h)
    · exact absurd h2 (not_lt_of_le h)

/-- Claim C8: the canonical buckets' half-open intervals are pairwise
disjoint — a time value lies in at most one bucket, hence in exactly one
when it lies in their union — and the value `7.5` lies in the
`"5-7 months"` bucket `[5, 8)` and in no other canonical bucket. -/
theorem canonical_buckets_partition :
    (∀ (q : ℚ) (tp tp' : String × (ℚ × ℚ)), tp ∈ timepoints →
        tp' ∈ timepoints → inBucket q tp.2 = true → inBucket q tp'.2 = true →
        tp = tp')
    ∧ (∀ q : ℚ, (∃ tp ∈ timepoints, inBucket q tp.2 = true) →
        ∃! tp : String × (ℚ × ℚ), tp ∈ timepoints ∧ inBucket q tp.2 = true)
    ∧ timepoints.lookup "5-7 months" = some (5, 8)
    ∧ inBucket (15 / 2 : ℚ) (5, 8) = true
    ∧ (∀ tp ∈ timepoints, tp.1 ≠ "5-7 months" →
        inBucket (15 / 2 : ℚ) tp.2 = false) := by
  have huniq : ∀ (q : ℚ) (tp tp' : String × (ℚ × ℚ)), tp ∈ timepoints →
      tp' ∈ timepoints → inBucket q tp.2 = true → inBucket q tp'.2 = true →
      tp = tp' := by
    intro q tp tp' htp htp' h1 h2
    simp only [timepoints, List.mem_cons, List.not_mem_nil, or_false] at htp htp'
    rcases htp with rfl | rfl | rfl | rfl <;>
      rcases htp' with rfl | rfl | rfl | rfl <;>
      simp only [inBucket, Bool.and_eq_true, decide_eq_true_eq] at h1 h2 <;>
      first
        | rfl
        | (exfalso; linarith [h1.1, h1.2, h2.1, h2.2])
  refine ⟨huniq, ?_, by decide, ?_, ?_⟩
  · intro q hq
    obtain ⟨tp, htp, hin⟩ := hq
    exact ⟨tp, ⟨htp, hin⟩, fun tp' h' => huniq q tp' tp h'.1 htp h'.2 hin⟩
  · rw [inBucket_eq_true_iff]
    constructor <;> norm_num
  · intro tp htp hne
    simp only [timepoints, List.mem_cons, List.not_mem_nil, or_false] at htp
    rcases htp with rfl | rfl | rfl | rfl
    · rw [inBucket_eq_false_iff]; right; norm_num
    · exact absurd rfl hne
    · rw [inBucket_eq_false_iff]; left; norm_num
    · rw [inBucket_eq_false_iff]; left; norm_num

/-- Looking a key up in an association list built by tagging each element
of a key list with a value computed from it. -/
theorem lookup_map_self {A : Type} (l : List String) (f : String → A)
    (k : String) :
    (l.map (fun v => (v, f v))).lookup k
      = if k ∈ l then some (f k) else none := by
  induction l with
  | nil => simp
  | cons a l ih =>
    by_cases h : k = a
    · subst h
      simp [List.lookup]
    · simp [List.lookup, beq_false_of_ne h, ih, h]

/-- One pass of the predicate loop never adds rows: each branch either
keeps the accumulated table or filters it. -/
theorem applyFilters_step_sublist (acc : List Row) (cv : String × List Val) :
    (applyFilters acc [cv]).Sublist acc := by
  simp only [applyFilters, List.foldl_cons, List.foldl_nil]
  split
  · exact List.filter_sublist acc
  · split
    · exact List.Sublist.refl acc
    · exact List.filter_sublist acc

/-- Claim C9: AND-composition narrows monotonically — appending one more
non-empty predicate on a column not already filtered can only lower (or
keep) every per-variable count reported by `filter_count`. -/
theorem and_composition_monotone (df : List Row)
    (cols : List (String × List Val)) (col : String) (vals : List Val)
    (vars : List String) (b : Bool) (var : String)
    (hne : vals ≠ []) (hnew : col ∉ cols.map Prod.fst) :
    (((filter_count df (cols ++ [(col, vals)]) vars b).1.lookup var).getD 0)
      ≤ (((filter_count df cols vars b).1.lookup var).getD 0) := by
  simp only [filter_count, lookup_map_self]
  by_cases hv : var ∈ vars
  · simp only [hv, if_pos, Option.getD_some]
    have hstep : (applyFilters (applyFilters
        (if b then ltFilter df else df) cols) [(col, vals)]).Sublist
        (applyFilters (if b then ltFilter df else df) cols) :=
      applyFilters_step_sublist _ _
    have happ : applyFilters (if b then ltFilter df else df)
        (cols ++ [(col, vals)])
        = applyFilters (applyFilters (if b then ltFilter df else df) cols)
            [(col, vals)] := by
      simp [applyFilters, List.foldl_append]
    rw [happ]
    exact hstep.countP_le _
  · simp [hv]

/-- Claim C9, witness: on the two-row table, adding the non-empty
predicate `sex_dashboard ∈ {"Female"}` to the empty predicate set does not
increase the `sex_dashboard` count. -/
theorem and_composition_monotone_witness :
    (((filter_count tLeak ([] ++ [("sex_dashboard", [Val.str "Female"])])
        ["sex_dashboard"] false).1.lookup "sex_dashboard").getD 0)
      ≤ (((filter_count tLeak [] ["sex_dashboard"] false).1.lookup
        "sex_dashboard").getD 0) :=
  and_composition_monotone tLeak [] "sex_dashboard" [Val.str "Female"]
    ["sex_dashboard"] false "sex_dashboard" (by decide) (by decide)

/-- Updating a key that is present in a tagged association list rewrites
exactly the entries carrying that key, in place. -/
theorem dictSet_map_self {A : Type} (l : List String) (f : String → A)
    (k : String) (a : A) (hk : k ∈ l) :
    dictSet (l.map (fun v => (v, f v))) k a
      = l.map (fun v => (v, if v = k then a else f v)) := by
  unfold dictSet
  rw [lookup_map_self, if_pos hk]
  simp only [Option.isSome_some, if_pos, List.map_map]
  apply List.map_congr_left
  intro v _
  by_cases h : v = k
  · subst h; simp
  · simp [h]

/-- Two cell functions that agree on the declared variables and labels
build the same two-level table. -/
theorem lfTable_congr (tps : List (String × (ℚ × ℚ))) (vars : List String)
    (g g' : String → String → Nat)
    (h : ∀ v ∈ vars, ∀ t ∈ tps, g v t.1 = g' v t.1) :
    lfTable tps vars g = lfTable tps vars g' := by
  unfold lfTable
  apply List.map_congr_left
  intro v hv
  congr 1
  apply List.map_congr_left
  intro t ht
  rw [h v hv t ht]

/-- Reduction of `setVarTp` when the variable's inner dict is found. -/
theorem setVarTp_of_lookup_some (outer : List (String × List (String × Nat)))
    (var tpl : String) (n : Nat) (inner : List (String × Nat))
    (h : outer.lookup var = some inner) :
    setVarTp outer var tpl n = dictSet outer var (dictSet inner tpl n) := by
  unfold setVarTp
  rw [h]

/-- Reduction of `setVarTp` when the variable is not a key of the table. -/
theorem setVarTp_of_lookup_none (outer : List (String × List (String × Nat)))
    (var tpl : String) (n : Nat)
    (h : outer.lookup var = none) :
    setVarTp outer var tpl n = outer := by
  unfold setVarTp
  rw [h]

/-- Effect of `longitudinal_counts[var][tp_label] = n` on a two-level
table when `var` is a declared variable and `tp_label` a declared bucket
label: the one cell function entry changes. -/
theorem setVarTp_lfTable (tps : List (String × (ℚ × ℚ))) (vars : List String)
    (g : String → String → Nat) (var tpl : String) (n : Nat)
    (hv : var ∈ vars) (ht : tpl ∈ tps.map Prod.fst) :
    setVarTp (lfTable tps vars g) var tpl n
      = lfTable tps vars (fun v L => if v = var ∧ L = tpl then n else g v L) := by
  have hinner : ∀ v : String, tps.map (fun t => (t.1, g v t.1))
      = (tps.map Prod.fst).map (fun L => (L, g v L)) := by
    intro v; rw [List.map_map]; rfl
  have hlook : (lfTable tps vars g).lookup var
      = some (tps.map (fun t => (t.1, g var t.1))) := by
    rw [show lfTable tps vars g
        = vars.map (fun v => (v, tps.map (fun t => (t.1, g v t.1)))) from rfl]
    rw [lookup_map_self, if_pos hv]
  rw [setVarTp_of_lookup_some _ _ _ _ _ hlook]
  rw [show lfTable tps vars g
      = vars.map (fun v => (v, tps.map (fun t => (t.1, g v t.1)))) from rfl]
  rw [hinner var, dictSet_map_self _ _ _ _ ht, dictSet_map_self _ _ _ _ hv]
  unfold lfTable
  apply List.map_congr_left
  intro v _
  by_cases hvv : v = var
  · subst hvv
    simp only [if_pos rfl, List.map_map]
    congr 1
    apply List.map_congr_left
    intro t _
    by_cases htl : t.1 = tpl
    · simp [htl]
    · simp [htl]
  · simp only [if_neg hvv]
    congr 1
    apply List.map_congr_left
    intro t _
    have : ¬(v = var ∧ t.1 = tpl) := fun hc => hvv hc.1
    simp [this]

/-- `longitudinal_counts[var][...] = n` with an undeclared `var` leaves
the two-level table unchanged (in the source this case cannot arise: the
loop iterates the very variables the table was built from). -/
theorem setVarTp_not_mem (tps : List (String × (ℚ × ℚ))) (vars : List String)
    (g : String → String → Nat) (var tpl : String) (n : Nat)
    (hv : var ∉ vars) :
    setVarTp (lfTable tps vars g) var tpl n = lfTable tps vars g := by
  apply setVarTp_of_lookup_none
  rw [show lfTable tps vars g
      = vars.map (fun v => (v, tps.map (fun t => (t.1, g v t.1)))) from rfl]
  rw [lookup_map_self, if_neg hv]

/-- The inner loop `for var in variables:` of `longitudinal_filter`,
writing one bucket label's counts: every declared variable's cell at that
label becomes `cnt var`, everything else is untouched. -/
theorem innerFold_lfTable (ws : List String) (tps : List (String × (ℚ × ℚ)))
    (vars : List String) (g : String → String → Nat) (tpl : String)
    (cnt : String → Nat) (ht : tpl ∈ tps.map Prod.fst) :
    ws.foldl (fun acc2 var => setVarTp acc2 var tpl (cnt var))
        (lfTable tps vars g)
      = lfTable tps vars
          (fun v L => if v ∈ ws ∧ L = tpl then cnt v else g v L) := by
  induction ws generalizing g with
  | nil =>
    simp only [List.foldl_nil]
    apply lfTable_congr
    intro v _ t _
    simp
  | cons w ws ih =>
    simp only [List.foldl_cons]
    by_cases hw : w ∈ vars
    · rw [setVarTp_lfTable _ _ _ _ _ _ hw ht, ih]
      apply lfTable_congr
      intro v _ t _
      by_cases hL : t.1 = tpl
      · by_cases hvw : v = w
        · subst hvw
          simp [hL, List.mem_cons]
        · simp [hL, hvw, List.mem_cons]
      · simp [hL]
    · rw [setVarTp_not_mem _ _ _ _ _ _ hw, ih]
      apply lfTable_congr
      intro v hv t _
      have hvw : v ≠ w := fun hh => hw (hh ▸ hv)
      simp [List.mem_cons, hvw]

/-- The outer loop `for tp_label, tp_range in timepoints.items():` of
`longitudinal_filter`, over any suffix `ts` of buckets whose labels are
declared and pairwise distinct: each cell of a processed label holds the
non-blank count of the rows falling in that label's interval. -/
theorem outerFold_lfTable (data : List Row)
    (ts tps : List (String × (ℚ × ℚ))) (vars : List String)
    (g : String → String → Nat)
    (hsub : ∀ u ∈ ts, u.1 ∈ tps.map Prod.fst)
    (hnd : (ts.map Prod.fst).Nodup) :
    ts.foldl
        (fun acc tp => vars.foldl
          (fun acc2 var => setVarTp acc2 var tp.1
            (countNonBlank (data.filter (fun r => rowInBucket r tp.2)) var))
          acc)
        (lfTable tps vars g)
      = lfTable tps vars (fun v L =>
          match ts.find? (fun u => u.1 == L) with
          | some u => countNonBlank (data.filter (fun r => rowInBucket r u.2)) v
          | none => g v L) := by
  induction ts generalizing g with
  | nil => rfl
  | cons u ts ih =>
    simp only [List.foldl_cons]
    rw [innerFold_lfTable vars tps vars g u.1 _
        (hsub u (List.mem_cons_self u ts))]
    rw [ih _ (fun x hx => hsub x (List.mem_cons_of_mem u hx))
        (List.nodup_cons.mp hnd).2]
    apply lfTable_congr
    intro v hv t _
    by_cases hL : u.1 = t.1
    · have h1 : (u :: ts).find? (fun x => x.1 == t.1) = some u :=
        List.find?_cons_of_pos ts (by simp [hL])
      have h2 : ts.find? (fun x => x.1 == t.1) = none := by
        rw [List.find?_eq_none]
        intro x hx
        simp only [beq_iff_eq]
        intro hxL
        exact (List.nodup_cons.mp hnd).1
          (hL ▸ hxL ▸ List.mem_map_of_mem Prod.fst hx)
      rw [h1, h2]
      exact if_pos ⟨hv, hL.symm⟩
    · have h1 : (u :: ts).find? (fun x => x.1 == t.1)
          = ts.find? (fun x => x.1 == t.1) :=
        List.find?_cons_of_neg ts (by simp [hL])
      rw [h1]
      cases hfind : ts.find? (fun x => x.1 == t.1) with
      | some w => rfl
      | none => exact if_neg (fun hc => hL hc.2.symm)

/-- With pairwise-distinct bucket labels, searching the bucket list for
the label of one of its own entries finds that entry. -/
theorem find?_label_self (ts : List (String × (ℚ × ℚ)))
    (hnd : (ts.map Prod.fst).Nodup) (t : String × (ℚ × ℚ)) (ht : t ∈ ts) :
    ts.find? (fun u => u.1 == t.1) = some t := by
  induction ts with
  | nil => cases ht
  | cons a l ih =>
    rcases List.mem_cons.mp ht with rfl | h
    · exact List.find?_cons_of_pos l (by simp)
    · have ha : ¬(a.1 == t.1) = true := by
        simp only [beq_iff_eq]
        intro he
        exact (List.nodup_cons.mp hnd).1 (he ▸ List.mem_map_of_mem Prod.fst h)
      rw [List.find?_cons_of_neg l ha]
      exact ih (List.nodup_cons.mp hnd).2 h

/-- Claim C1, amended: for every table, bucket set (with pairwise-distinct
labels, as a Python dict guarantees) and variable list, `bucketize`
returns the two-level mapping whose *outer* keys are the variable names
and whose *inner* keys are the bucket labels, the count at
`(var, label)` being the number of rows whose `tss` value lies in that
bucket's half-open interval and whose `var` cell is non-missing. -/
theorem bucketize_var_to_label_counts (data : List Row)
    (tps : List (String × (ℚ × ℚ))) (vars : List String)
    (hnd : (tps.map Prod.fst).Nodup) :
    longitudinal_filter data tps vars
      = vars.map (fun v => (v, tps.map (fun t =>
          (t.1, countNonBlank (data.filter (fun r => rowInBucket r t.2)) v)))) := by
  have h0 : longitudinal_filter data tps vars
      = tps.foldl
          (fun acc tp => vars.foldl
            (fun acc2 var => setVarTp acc2 var tp.1
              (countNonBlank (data.filter (fun r => rowInBucket r tp.2)) var))
            acc)
          (lfTable tps vars (fun _ _ => 0)) := rfl
  rw [h0, outerFold_lfTable data tps tps vars _
      (fun u hu => List.mem_map_of_mem Prod.fst hu) hnd]
  unfold lfTable
  apply List.map_congr_left
  intro v _
  congr 1
  apply List.map_congr_left
  intro t ht
  beta_reduce
  rw [find?_label_self tps hnd t ht]

/-- Claim C1, witness: the characterization instantiated on the one-row
table `tWit` with the canonical bucket set and the single variable
`ikdc`; the distinct-labels side condition is discharged by computation. -/
theorem bucketize_var_to_label_counts_witness :
    longitudinal_filter tWit timepoints ["ikdc"]
      = ["ikdc"].map (fun v => (v, timepoints.map (fun t =>
          (t.1, countNonBlank (tWit.filter (fun r => rowInBucket r t.2)) v)))) :=
  bucketize_var_to_label_counts tWit timepoints ["ikdc"] (by decide)

/-- Claim C1, counterexample: on the empty table with the canonical bucket
set and variable list `["ikdc"]`, the outer keys of the bucketize result
are the variable names, not the bucket labels — the claimed key order
(bucket label outside, variable inside) does not hold. -/
theorem bucketize_outer_keys_counterexample :
    (longitudinal_filter [] timepoints ["ikdc"]).map Prod.fst = ["ikdc"]
    ∧ (longitudinal_filter [] timepoints ["ikdc"]).map Prod.fst
        ≠ timepoints.map Prod.fst := by
  exact ⟨rfl, by decide⟩

end Arrow
